import Mathlib

/-!
Shallow embedding of `services/sharedchannel/msg.go` (Mattermost server,
shared-channel incremental sync): the sync-message builder
`postsToSyncMessages`, the batch user resolver `usersForPost`, the field
scrubber `sanitizeUserForSync` and the replication gate `shouldUserSync`.

Store collaborators (reaction store, user store, shared-channel cursor
store, permalink rewriter, attachment resolver, id generator) are passed
as an explicit environment record `SyncEnv`; the Go per-batch user cache
(a `map[string]struct{}`) is threaded explicitly as the list of its keys.
Go `int64` timestamps are embedded as `Int` (the code performs no
arithmetic that could overflow), `*string` origin markers as
`Option String`, and fallible store calls as `Except String`.
-/

namespace Sharedchannel

/-- Modelled from the spec: a subset of `model.Post` (the `model` package is
not among the sources) carrying the fields this core reads: identifiers,
author, message body, post type, edit/delete timestamps, and the origin
marker (`RemoteId`, a nil-able string in Go). -/
structure Post where
  Id : String
  ChannelId : String
  UserId : String
  Type' : String
  Message : String
  EditAt : Int
  DeleteAt : Int
  RemoteId : Option String
deriving DecidableEq, Repr

/-- Modelled from the spec: `model.Post.IsSystemMessage` (outside the
sources) — a post is a system-generated notice when its type carries the
system prefix; such posts are never replicated. -/
def Post.IsSystemMessage (p : Post) : Bool :=
  p.Type'.startsWith "system_"

/-- Modelled from the spec: a subset of `model.Reaction` — the author user
id, the post id and the emoji name. The store already filters out
reactions originating from the target remote. -/
structure Reaction where
  UserId : String
  PostId : String
  EmojiName : String
deriving DecidableEq, Repr

/-- Modelled from the spec: a subset of `model.User` — the fields the
scrubber resets, the fields the gate reads (`Id`, `UpdateAt`, the origin
marker `RemoteId`), and representative stable-identity fields
(`Username`, `Email`, `Nickname`, `CreateAt`). -/
structure User where
  Id : String
  Username : String
  Email : String
  Nickname : String
  CreateAt : Int
  UpdateAt : Int
  RemoteId : Option String
  Password : String
  AuthData : Option String
  AuthService : String
  Roles : String
  AllowMarketing : Bool
  Props : List (String × String)
  NotifyProps : List (String × String)
  LastPasswordUpdate : Int
  LastPictureUpdate : Int
  FailedAttempts : Int
  MfaActive : Bool
  MfaSecret : String
deriving DecidableEq, Repr

/-- Modelled from the spec: `model.RemoteCluster` — only its id is read. -/
structure RemoteCluster where
  RemoteId : String
deriving DecidableEq, Repr

/-- Modelled from the spec: `model.SharedChannelUser`, the per-(user,
remote) sync-cursor row with its `LastSyncAt` timestamp. -/
structure SharedChannelUser where
  UserId : String
  RemoteId : String
  LastSyncAt : Int
deriving DecidableEq, Repr

/-- Modelled from the spec: a subset of `model.FileInfo` (attachment
descriptor); this core only carries it through. -/
structure FileInfo where
  Id : String
deriving DecidableEq, Repr

/-- Result of the shared-channel cursor lookup
(`SharedChannel().GetUser`): found, the distinguished `errNotFound`, or
any other store error (which `shouldUserSync` propagates). -/
inductive CursorResult where
  | found (scu : SharedChannelUser)
  | notFound
  | storeError (msg : String)
deriving DecidableEq, Repr

/-- The collaborators the `Service` consults, as an explicit environment:
reaction fetch (`Reaction().GetForPostSince`), user fetch
(`User().Get`), cursor fetch/save (`SharedChannel().GetUser` /
`SaveUser`, the save reporting success), the permalink rewriter
(`processPermalinkToRemote`), the attachment resolver
(`postToAttachments`) and the fresh-id generator (`model.NewId`, keyed
by the user id being sanitized so each user gets its own opaque value). -/
structure SyncEnv where
  getReactionsSince : String → Int → String → Bool → Except String (List Reaction)
  getUser : String → Except String User
  getSCUser : String → String → CursorResult
  saveSCUser : SharedChannelUser → Bool
  processPermalinkToRemote : Post → String
  postToAttachments : Post → RemoteCluster → Int → Except String (List FileInfo)
  newId : String → String

/-- One transfer unit (`syncMsg` in the Go source): the payload sent to a
remote cluster for one changed post context. -/
structure syncMsg where
  ChannelId : String
  PostId : String
  Post : Option Post
  Users : List User
  Reactions : List Reaction
  Attachments : List FileInfo
deriving DecidableEq, Repr

/-- Lines 164-179 of `msg.go`: reset the sensitive fields of a user
before cross-cluster transmission. The Go code assigns
`user.Password = model.NewId()`; the fresh opaque value is supplied here
as the explicit argument `freshId`. Every field not assigned below is
left unchanged, and the function is total. -/
def sanitizeUserForSync (freshId : String) (user : User) : User :=
  { user with
    Password := freshId
    AuthData := none
    AuthService := ""
    Roles := "system_user"
    AllowMarketing := false
    Props := []
    NotifyProps := []
    LastPasswordUpdate := 0
    LastPictureUpdate := 0
    FailedAttempts := 0
    MfaActive := false
    MfaSecret := "" }

/-- Lines 184-211 of `msg.go`: decide whether `user` must be propagated to
`rc`. Besides the Go pair `(bool, error)` (embedded as
`Except String Bool`), the result records the cursor rows whose save was
attempted together with the store's success flag — the Go code only logs
a failed save and still reports `true`. -/
def shouldUserSync (env : SyncEnv) (user : User) (rc : RemoteCluster) :
    Except String Bool × List (SharedChannelUser × Bool) :=
  if user.RemoteId = some rc.RemoteId then
    (.ok false, [])
  else
    match env.getSCUser user.Id rc.RemoteId with
    | .storeError msg => (.error msg, [])
    | .notFound =>
        let scu : SharedChannelUser :=
          { UserId := user.Id, RemoteId := rc.RemoteId, LastSyncAt := 0 }
        (.ok true, [(scu, env.saveSCUser scu)])
    | .found scu =>
        if scu.LastSyncAt ≥ user.UpdateAt then (.ok false, [])
        else (.ok true, [])

/-- The body of the second loop of `usersForPost` (lines 144-160): fetch
the user record for a candidate id; on fetch failure, gate failure or a
negative gate decision the candidate yields nothing (the Go code logs and
continues), otherwise it yields the sanitized record. -/
def resolveUser (env : SyncEnv) (rc : RemoteCluster) (id : String) : Option User :=
  match env.getUser id with
  | .error _ => none
  | .ok user =>
    match (shouldUserSync env user rc).1 with
    | .error _ => none
    | .ok false => none
    | .ok true => some (sanitizeUserForSync (env.newId id) user)

/-- The first phase of `usersForPost` (lines 126-138): collect candidate
user ids — the post author (when the post is included), then each
reaction's author in order — marking each id in the batch cache at first
sight. Returns the candidate ids in first-seen order and the grown
cache. -/
def collectStep (acc : List String × List String) (r : Reaction) :
    List String × List String :=
  if r.UserId ∈ acc.2 then acc else (acc.1 ++ [r.UserId], r.UserId :: acc.2)

/-- The candidate accumulation of `usersForPost`: ids in first-seen order
paired with the grown cache. -/
def collectUserIds (post : Option Post) (reactions : List Reaction)
    (uCache : List String) : List String × List String :=
  let init : List String × List String :=
    match post with
    | some p => if p.UserId ∈ uCache then ([], uCache) else ([p.UserId], p.UserId :: uCache)
    | none => ([], uCache)
  reactions.foldl collectStep init

/-- Lines 125-162 of `msg.go`: the users associated with a post (author
and reaction authors) that need synchronizing, deduplicated through the
batch cache, resolved and sanitized. Returns the user list and the grown
cache. -/
def usersForPost (env : SyncEnv) (post : Option Post) (reactions : List Reaction)
    (rc : RemoteCluster) (uCache : List String) : List User × List String :=
  let collected := collectUserIds post reactions uCache
  let users := collected.1.foldl
    (fun users id =>
      match resolveUser env rc id with
      | none => users
      | some u => users ++ [u])
    []
  (users, collected.2)

/-- Lines 70-84 of `msg.go`: decide whether the post body is included.
The body is dropped when only reactions changed since the cursor
(`EditAt > 0 ∧ EditAt < nextSyncAt ∧ DeleteAt = 0`) and, independently,
when the post originated at the target remote. -/
def classifyPost (p : Post) (rc : RemoteCluster) (nextSyncAt : Int) : Option Post :=
  let postSync : Option Post := some p
  let postSync : Option Post :=
    if p.EditAt > 0 ∧ p.EditAt < nextSyncAt ∧ p.DeleteAt = 0 then none else postSync
  if p.RemoteId = some rc.RemoteId then none else postSync

/-- Line 89 of `msg.go`: when the body is included, rewrite its permalinks
through the collaborator (`postSync.Message = processPermalinkToRemote`). -/
def enrichPost (env : SyncEnv) (postSync : Option Post) : Option Post :=
  postSync.map fun q => { q with Message := env.processPermalinkToRemote q }

/-- Lines 86-99 of `msg.go`: fetch attachment descriptors for an included
post; a fetch failure is logged and the post proceeds with no
attachments. -/
def attachmentsForPost (env : SyncEnv) (postSync : Option Post) (rc : RemoteCluster)
    (nextSyncAt : Int) : List FileInfo :=
  match postSync with
  | none => []
  | some q =>
    match env.postToAttachments q rc nextSyncAt with
    | .ok atts => atts
    | .error _ => []

/-- The loop of `postsToSyncMessages` (lines 59-118), threading the batch
user cache: skip system messages; fetch the reaction delta (a failure
aborts the whole batch with that error); classify and enrich the post;
resolve users; drop the unit when post, reactions and users are all
empty; otherwise emit it in input order. -/
def postsToSyncMessagesAux (env : SyncEnv) (rc : RemoteCluster) (nextSyncAt : Int) :
    List Post → List String → Except String (List syncMsg)
  | [], _ => .ok []
  | p :: rest, uCache =>
    if p.IsSystemMessage then
      postsToSyncMessagesAux env rc nextSyncAt rest uCache
    else
      match env.getReactionsSince p.Id nextSyncAt rc.RemoteId true with
      | .error e => .error e
      | .ok reactions =>
        let postSync := enrichPost env (classifyPost p rc nextSyncAt)
        let attachments := attachmentsForPost env postSync rc nextSyncAt
        let res := usersForPost env postSync reactions rc uCache
        if postSync = none ∧ reactions = [] ∧ res.1 = [] then
          postsToSyncMessagesAux env rc nextSyncAt rest res.2
        else
          match postsToSyncMessagesAux env rc nextSyncAt rest res.2 with
          | .error e => .error e
          | .ok msgs =>
            .ok ({ ChannelId := p.ChannelId, PostId := p.Id, Post := postSync,
                   Users := res.1, Reactions := reactions, Attachments := attachments } :: msgs)

/-- Lines 54-120 of `msg.go`: convert a slice of posts into the ordered
list of sync messages for one remote, starting from a fresh batch user
cache. -/
def postsToSyncMessages (env : SyncEnv) (posts : List Post) (rc : RemoteCluster)
    (nextSyncAt : Int) : Except String (List syncMsg) :=
  postsToSyncMessagesAux env rc nextSyncAt posts []

/-! Concrete fixtures used by the witness theorems. -/

/-- A concrete user record whose id is the given string; every sensitive
field is populated so the scrubber's effect is observable. -/
def testUser (id : String) : User :=
  { Id := id, Username := "name-" ++ id, Email := "e@x", Nickname := "nick",
    CreateAt := 1, UpdateAt := 10, RemoteId := none, Password := "secret",
    AuthData := some "ext", AuthService := "ldap", Roles := "system_admin",
    AllowMarketing := true, Props := [("k", "v")], NotifyProps := [("n", "w")],
    LastPasswordUpdate := 5, LastPictureUpdate := 6, FailedAttempts := 2,
    MfaActive := true, MfaSecret := "mfa" }

/-- The target remote used by the witnesses. -/
def testRC : RemoteCluster := { RemoteId := "remoteA" }

/-- `testUser "u1"` modified after the stored cursor of `testEnvFound`. -/
def testUserStale : User := { testUser "u1" with UpdateAt := 100 }

/-- A user that originated at the target remote `remoteA`. -/
def originUser : User := { testUser "u5" with RemoteId := some "remoteA" }

/-- A reaction on post `p2` by user `u2`. -/
def testReaction : Reaction := { UserId := "u2", PostId := "p2", EmojiName := "+1" }

/-- A concrete environment: reaction fetch fails on post `pbad`, returns
one reaction on `p2` and none elsewhere; user fetch always succeeds with
`testUser`; no cursor rows exist and cursor saves fail. -/
def testEnv : SyncEnv :=
  { getReactionsSince := fun pid _ _ _ =>
      if pid = "pbad" then .error "boom"
      else if pid = "p2" then .ok [testReaction] else .ok []
    getUser := fun id => .ok (testUser id)
    getSCUser := fun _ _ => .notFound
    saveSCUser := fun _ => false
    processPermalinkToRemote := fun p => p.Message
    postToAttachments := fun _ _ _ => .ok []
    newId := fun id => "fresh-" ++ id }

/-- `testEnv` with an existing cursor row at `LastSyncAt = 50` for every
(user, remote) pair. -/
def testEnvFound : SyncEnv :=
  { testEnv with getSCUser := fun uid rid =>
      CursorResult.found { UserId := uid, RemoteId := rid, LastSyncAt := 50 } }

/-- A new local post (never edited, not deleted) on channel `ch` by `u1`. -/
def post1 : Post :=
  { Id := "p1", ChannelId := "ch", UserId := "u1", Type' := "", Message := "hello",
    EditAt := 0, DeleteAt := 0, RemoteId := none }

/-- A post edited before the cursor (`EditAt = 50 < 100`), not deleted:
its body is omitted while its `p2` reaction still syncs. -/
def post2 : Post :=
  { Id := "p2", ChannelId := "ch", UserId := "u3", Type' := "", Message := "m2",
    EditAt := 50, DeleteAt := 0, RemoteId := none }

/-- A post that originated at the target remote `remoteA`. -/
def post3 : Post :=
  { Id := "p3", ChannelId := "ch", UserId := "u4", Type' := "", Message := "m3",
    EditAt := 0, DeleteAt := 0, RemoteId := some "remoteA" }

/-- A post whose reaction fetch fails in `testEnv`. -/
def postBad : Post :=
  { Id := "pbad", ChannelId := "ch", UserId := "u1", Type' := "", Message := "mb",
    EditAt := 0, DeleteAt := 0, RemoteId := none }

/-- The sanitized copy of user `u1` as `testEnv` emits it. -/
def u1sync : User := sanitizeUserForSync "fresh-u1" (testUser "u1")

/-- The sanitized copy of user `u2` as `testEnv` emits it. -/
def u2sync : User := sanitizeUserForSync "fresh-u2" (testUser "u2")

/-- The unit `testEnv` emits for `post1`. -/
def unit1 : syncMsg :=
  { ChannelId := "ch", PostId := "p1", Post := some post1,
    Users := [u1sync], Reactions := [], Attachments := [] }

/-- The unit `testEnv` emits for `post2`: body omitted, reaction and its
author carried. -/
def unit2 : syncMsg :=
  { ChannelId := "ch", PostId := "p2", Post := none,
    Users := [u2sync], Reactions := [testReaction], Attachments := [] }

example : postsToSyncMessages testEnv [post1] testRC 100 = .ok [unit1] := by rfl
example : postsToSyncMessages testEnv [post2] testRC 100 = .ok [unit2] := by rfl
example : postsToSyncMessages testEnv [post3] testRC 100 = .ok [] := by rfl
example : postsToSyncMessages testEnv [post1, postBad, post2] testRC 100 = .error "boom" := by rfl
example : postsToSyncMessages testEnv [post1, post2] testRC 100 = .ok [unit1, unit2] := by rfl

/-! Helper lemmas shared by the claim theorems. -/

theorem sanitize_preserves_Id (pw : String) (u : User) :
    (sanitizeUserForSync pw u).Id = u.Id := rfl

theorem sanitize_preserves_RemoteId (pw : String) (u : User) :
    (sanitizeUserForSync pw u).RemoteId = u.RemoteId := rfl

theorem collect_fold_inv (c0 : List String) :
    ∀ (reactions : List Reaction) (ids c : List String),
      ids.Nodup → (∀ i ∈ ids, i ∈ c) → (∀ i ∈ ids, i ∉ c0) → c0 ⊆ c →
      ((reactions.foldl collectStep (ids, c)).1.Nodup ∧
       (∀ i ∈ (reactions.foldl collectStep (ids, c)).1,
          i ∈ (reactions.foldl collectStep (ids, c)).2) ∧
       (∀ i ∈ (reactions.foldl collectStep (ids, c)).1, i ∉ c0) ∧
       c0 ⊆ (reactions.foldl collectStep (ids, c)).2) := by
  intro reactions
  induction reactions with
  | nil =>
    intro ids c h1 h2 h3 h4
    exact ⟨h1, h2, h3, h4⟩
  | cons r rs ih =>
    intro ids c h1 h2 h3 h4
    simp only [List.foldl_cons]
    by_cases hmem : r.UserId ∈ c
    · have hstep : collectStep (ids, c) r = (ids, c) := by
        simp [collectStep, hmem]
      rw [hstep]
      exact ih ids c h1 h2 h3 h4
    · have hstep : collectStep (ids, c) r = (ids ++ [r.UserId], r.UserId :: c) := by
        simp [collectStep, hmem]
      rw [hstep]
      have hnotin : r.UserId ∉ ids := fun hin => hmem (h2 _ hin)
      apply ih
      · simp [List.nodup_append, h1, List.disjoint_singleton, hnotin]
      · intro i hi
        rcases List.mem_append.mp hi with hi | hi
        · exact List.mem_cons_of_mem _ (h2 _ hi)
        · simp only [List.mem_singleton] at hi
          subst hi
          exact List.mem_cons_self _ _
      · intro i hi
        rcases List.mem_append.mp hi with hi | hi
        · exact h3 _ hi
        · simp only [List.mem_singleton] at hi
          subst hi
          exact fun hc0 => hmem (h4 hc0)
      · exact fun x hx => List.mem_cons_of_mem _ (h4 hx)

theorem collectUserIds_inv (post : Option Post) (reactions : List Reaction) (c : List String) :
    (collectUserIds post reactions c).1.Nodup ∧
    (∀ i ∈ (collectUserIds post reactions c).1, i ∈ (collectUserIds post reactions c).2) ∧
    (∀ i ∈ (collectUserIds post reactions c).1, i ∉ c) ∧
    c ⊆ (collectUserIds post reactions c).2 := by
  unfold collectUserIds
  rcases post with _ | p
  · exact collect_fold_inv c reactions [] c (by simp) (by simp) (by simp) (fun x hx => hx)
  · by_cases hm : p.UserId ∈ c
    · simp only [hm, if_pos]
      exact collect_fold_inv c reactions [] c (by simp) (by simp) (by simp) (fun x hx => hx)
    · simp only [hm, if_neg, not_false_iff]
      refine collect_fold_inv c reactions [p.UserId] (p.UserId :: c) (by simp) ?_ ?_
        (fun x hx => List.mem_cons_of_mem _ hx)
      · intro i hi
        simp only [List.mem_singleton] at hi
        subst hi
        exact List.mem_cons_self _ _
      · intro i hi
        simp only [List.mem_singleton] at hi
        subst hi
        exact hm

theorem foldl_resolve_eq_filterMap (f : String → Option User) :
    ∀ (ids : List String) (acc : List User),
      ids.foldl
        (fun users id => match f id with | none => users | some u => users ++ [u]) acc
        = acc ++ ids.filterMap f := by
  intro ids
  induction ids with
  | nil => intro acc; simp
  | cons i is ih =>
    intro acc
    simp only [List.foldl_cons, List.filterMap_cons]
    cases hf : f i with
    | none => simp [ih]
    | some u => simp [ih]

theorem usersForPost_eq (env : SyncEnv) (post : Option Post) (reactions : List Reaction)
    (rc : RemoteCluster) (c : List String) :
    usersForPost env post reactions rc c =
      ((collectUserIds post reactions c).1.filterMap (resolveUser env rc),
       (collectUserIds post reactions c).2) := by
  unfold usersForPost
  dsimp only
  rw [foldl_resolve_eq_filterMap]
  simp

theorem map_id_filterMap_eq_filter (f : String → Option User)
    (hf : ∀ id u, f id = some u → u.Id = id) :
    ∀ ids : List String,
      (ids.filterMap f).map User.Id = ids.filter (fun id => (f id).isSome) := by
  intro ids
  induction ids with
  | nil => rfl
  | cons i is ih =>
    simp only [List.filterMap_cons, List.filter_cons]
    cases hfi : f i with
    | none => simpa using ih
    | some u => simp [ih, hf i u hfi]

theorem resolveUser_eq_some {env : SyncEnv} {rc : RemoteCluster} {id : String} {u : User}
    (h : resolveUser env rc id = some u) :
    ∃ user, env.getUser id = .ok user ∧ (shouldUserSync env user rc).1 = Except.ok true ∧
      u = sanitizeUserForSync (env.newId id) user := by
  unfold resolveUser at h
  split at h
  · exact absurd h (by simp)
  next user hg =>
    split at h
    · exact absurd h (by simp)
    · exact absurd h (by simp)
    next hs =>
      exact ⟨user, hg, hs, (Option.some_inj.mp h).symm⟩

theorem resolveUser_id {env : SyncEnv} {rc : RemoteCluster}
    (hwf : ∀ id u, env.getUser id = .ok u → u.Id = id)
    {id : String} {u : User} (h : resolveUser env rc id = some u) : u.Id = id := by
  obtain ⟨user, hg, _, hu⟩ := resolveUser_eq_some h
  rw [hu, sanitize_preserves_Id]
  exact hwf id user hg

theorem shouldUserSync_true_not_origin {env : SyncEnv} {user : User} {rc : RemoteCluster}
    (h : (shouldUserSync env user rc).1 = Except.ok true) :
    user.RemoteId ≠ some rc.RemoteId := by
  intro hr
  unfold shouldUserSync at h
  rw [if_pos hr] at h
  simp at h

theorem mem_usersForPost {env : SyncEnv} {post : Option Post} {reactions : List Reaction}
    {rc : RemoteCluster} {c : List String} {u : User}
    (h : u ∈ (usersForPost env post reactions rc c).1) :
    ∃ id ∈ (collectUserIds post reactions c).1, resolveUser env rc id = some u := by
  rw [usersForPost_eq] at h
  exact List.mem_filterMap.mp h

theorem usersForPost_map_id {env : SyncEnv}
    (hwf : ∀ id u, env.getUser id = .ok u → u.Id = id)
    (post : Option Post) (reactions : List Reaction) (rc : RemoteCluster) (c : List String) :
    (usersForPost env post reactions rc c).1.map User.Id =
      (collectUserIds post reactions c).1.filter
        (fun id => (resolveUser env rc id).isSome) := by
  rw [usersForPost_eq]
  exact map_id_filterMap_eq_filter _ (fun id u h => resolveUser_id hwf h) _

theorem usersForPost_ids_nodup {env : SyncEnv}
    (hwf : ∀ id u, env.getUser id = .ok u → u.Id = id)
    (post : Option Post) (reactions : List Reaction) (rc : RemoteCluster) (c : List String) :
    ((usersForPost env post reactions rc c).1.map User.Id).Nodup := by
  rw [usersForPost_map_id hwf]
  exact (collectUserIds_inv post reactions c).1.filter _

theorem usersForPost_id_fresh {env : SyncEnv}
    (hwf : ∀ id u, env.getUser id = .ok u → u.Id = id)
    {post : Option Post} {reactions : List Reaction} {rc : RemoteCluster} {c : List String}
    {u : User} (h : u ∈ (usersForPost env post reactions rc c).1) :
    u.Id ∉ c ∧ u.Id ∈ (usersForPost env post reactions rc c).2 := by
  obtain ⟨id, hid, hres⟩ := mem_usersForPost h
  have hids := resolveUser_id hwf hres
  obtain ⟨-, h2, h3, -⟩ := collectUserIds_inv post reactions c
  constructor
  · rw [hids]
    exact h3 id hid
  · rw [usersForPost_eq, hids]
    exact h2 id hid

theorem usersForPost_cache_mono (env : SyncEnv) (post : Option Post)
    (reactions : List Reaction) (rc : RemoteCluster) (c : List String) :
    c ⊆ (usersForPost env post reactions rc c).2 := by
  rw [usersForPost_eq]
  exact (collectUserIds_inv post reactions c).2.2.2

theorem aux_cons_ok {env : SyncEnv} {rc : RemoteCluster} {T : Int} {p : Post}
    {rest : List Post} {c : List String} {l : List syncMsg}
    (h : postsToSyncMessagesAux env rc T (p :: rest) c = .ok l) :
    (p.IsSystemMessage = true ∧ postsToSyncMessagesAux env rc T rest c = .ok l) ∨
    (p.IsSystemMessage = false ∧ ∃ reactions,
      env.getReactionsSince p.Id T rc.RemoteId true = .ok reactions ∧
      (((enrichPost env (classifyPost p rc T) = none ∧ reactions = [] ∧
          (usersForPost env (enrichPost env (classifyPost p rc T)) reactions rc c).1 = []) ∧
        postsToSyncMessagesAux env rc T rest
          (usersForPost env (enrichPost env (classifyPost p rc T)) reactions rc c).2 = .ok l) ∨
       (¬(enrichPost env (classifyPost p rc T) = none ∧ reactions = [] ∧
          (usersForPost env (enrichPost env (classifyPost p rc T)) reactions rc c).1 = []) ∧
        ∃ msgs, postsToSyncMessagesAux env rc T rest
            (usersForPost env (enrichPost env (classifyPost p rc T)) reactions rc c).2 = .ok msgs ∧
          l = { ChannelId := p.ChannelId, PostId := p.Id,
                Post := enrichPost env (classifyPost p rc T),
                Users := (usersForPost env (enrichPost env (classifyPost p rc T)) reactions rc c).1,
                Reactions := reactions,
                Attachments :=
                  attachmentsForPost env (enrichPost env (classifyPost p rc T)) rc T } :: msgs))) := by
  by_cases hsys : p.IsSystemMessage
  · left
    refine ⟨hsys, ?_⟩
    rw [postsToSyncMessagesAux, if_pos hsys] at h
    exact h
  · right
    refine ⟨by simpa using hsys, ?_⟩
    rw [postsToSyncMessagesAux, if_neg hsys] at h
    split at h
    · exact absurd h (by simp)
    next reactions hget =>
      refine ⟨reactions, hget, ?_⟩
      dsimp only at h
      split at h
      next hguard => exact Or.inl ⟨hguard, h⟩
      next hguard =>
        split at h
        · exact absurd h (by simp)
        next msgs hrec =>
          exact Or.inr ⟨hguard, msgs, hrec, (Except.ok.inj h).symm⟩

theorem aux_cons_error {env : SyncEnv} {rc : RemoteCluster} {T : Int} {p : Post}
    {rest : List Post} {c : List String} {e : String}
    (h : postsToSyncMessagesAux env rc T (p :: rest) c = .error e) :
    (p.IsSystemMessage = true ∧ postsToSyncMessagesAux env rc T rest c = .error e) ∨
    (p.IsSystemMessage = false ∧
      env.getReactionsSince p.Id T rc.RemoteId true = .error e) ∨
    (p.IsSystemMessage = false ∧ ∃ reactions,
      env.getReactionsSince p.Id T rc.RemoteId true = .ok reactions ∧
      postsToSyncMessagesAux env rc T rest
        (usersForPost env (enrichPost env (classifyPost p rc T)) reactions rc c).2 = .error e) := by
  by_cases hsys : p.IsSystemMessage
  · left
    refine ⟨hsys, ?_⟩
    rw [postsToSyncMessagesAux, if_pos hsys] at h
    exact h
  · rw [postsToSyncMessagesAux, if_neg hsys] at h
    split at h
    next e' hget =>
      refine Or.inr (Or.inl ⟨by simpa using hsys, ?_⟩)
      rw [hget]
      exact congrArg Except.error (Except.error.inj h)
    next reactions hget =>
      refine Or.inr (Or.inr ⟨by simpa using hsys, reactions, hget, ?_⟩)
      dsimp only at h
      split at h
      next hguard => exact h
      next hguard =>
        split at h
        next e' hrec =>
          rw [hrec]
          exact congrArg Except.error (Except.error.inj h)
        · exact absurd h (by simp)

theorem mem_output {env : SyncEnv} {rc : RemoteCluster} {T : Int} :
    ∀ {posts : List Post} {c : List String} {l : List syncMsg},
      postsToSyncMessagesAux env rc T posts c = .ok l → ∀ {sm : syncMsg}, sm ∈ l →
      ∃ p ∈ posts, ∃ reactions c', p.IsSystemMessage = false ∧
        env.getReactionsSince p.Id T rc.RemoteId true = .ok reactions ∧
        sm = { ChannelId := p.ChannelId, PostId := p.Id,
               Post := enrichPost env (classifyPost p rc T),
               Users := (usersForPost env (enrichPost env (classifyPost p rc T)) reactions rc c').1,
               Reactions := reactions,
               Attachments := attachmentsForPost env (enrichPost env (classifyPost p rc T)) rc T } := by
  intro posts
  induction posts with
  | nil =>
    intro c l h sm hsm
    rw [postsToSyncMessagesAux] at h
    rw [← Except.ok.inj h] at hsm
    exact absurd hsm (List.not_mem_nil sm)
  | cons p rest ih =>
    intro c l h sm hsm
    rcases aux_cons_ok h with ⟨hsys, hrest⟩ | ⟨hsys, reactions, hget, hcase⟩
    · obtain ⟨q, hq, r, c', hx⟩ := ih hrest hsm
      exact ⟨q, List.mem_cons_of_mem _ hq, r, c', hx⟩
    · rcases hcase with ⟨-, hrest⟩ | ⟨-, msgs, hrec, hl⟩
      · obtain ⟨q, hq, r, c', hx⟩ := ih hrest hsm
        exact ⟨q, List.mem_cons_of_mem _ hq, r, c', hx⟩
      · subst hl
        rcases List.mem_cons.mp hsm with hsm | hsm
        · exact ⟨p, List.mem_cons_self _ _, reactions, c, hsys, hget, hsm⟩
        · obtain ⟨q, hq, r, c', hx⟩ := ih hrec hsm
          exact ⟨q, List.mem_cons_of_mem _ hq, r, c', hx⟩

theorem aux_error_source {env : SyncEnv} {rc : RemoteCluster} {T : Int} :
    ∀ {posts : List Post} {c : List String} {e : String},
      postsToSyncMessagesAux env rc T posts c = .error e →
      ∃ p ∈ posts, p.IsSystemMessage = false ∧
        env.getReactionsSince p.Id T rc.RemoteId true = .error e := by
  intro posts
  induction posts with
  | nil =>
    intro c e h
    rw [postsToSyncMessagesAux] at h
    exact absurd h (by simp)
  | cons p rest ih =>
    intro c e h
    rcases aux_cons_error h with ⟨_, hrest⟩ | ⟨hsys, hget⟩ | ⟨_, _, _, hrest⟩
    · obtain ⟨q, hq, hx⟩ := ih hrest
      exact ⟨q, List.mem_cons_of_mem _ hq, hx⟩
    · exact ⟨p, List.mem_cons_self _ _, hsys, hget⟩
    · obtain ⟨q, hq, hx⟩ := ih hrest
      exact ⟨q, List.mem_cons_of_mem _ hq, hx⟩

theorem aux_first_fetch_error {env : SyncEnv} {rc : RemoteCluster} {T : Int} :
    ∀ (pre : List Post) (c : List String) {p : Post} {e : String} {suf : List Post},
      (∀ q ∈ pre, q.IsSystemMessage = false →
        (env.getReactionsSince q.Id T rc.RemoteId true).toOption.isSome = true) →
      p.IsSystemMessage = false →
      env.getReactionsSince p.Id T rc.RemoteId true = .error e →
      postsToSyncMessagesAux env rc T (pre ++ p :: suf) c = .error e := by
  intro pre
  induction pre with
  | nil =>
    intro c p e suf _ hp herr
    rw [List.nil_append, postsToSyncMessagesAux, if_neg (by simp [hp]), herr]
  | cons q pre' ih =>
    intro c p e suf hpre hp herr
    rw [List.cons_append, postsToSyncMessagesAux]
    by_cases hq : q.IsSystemMessage
    · rw [if_pos hq]
      exact ih c (fun x hx => hpre x (List.mem_cons_of_mem _ hx)) hp herr
    · rw [if_neg hq]
      have hqok := hpre q (List.mem_cons_self _ _) (by simpa using hq)
      cases hget : env.getReactionsSince q.Id T rc.RemoteId true with
      | error e' =>
        rw [hget] at hqok
        exact absurd hqok (by simp [Except.toOption])
      | ok reactions =>
        dsimp only
        have hrest := @ih (usersForPost env (enrichPost env (classifyPost q rc T)) reactions rc c).2
          p e suf (fun x hx => hpre x (List.mem_cons_of_mem _ hx)) hp herr
        split
        · exact hrest
        · rw [hrest]

theorem enrichPost_eq_none (env : SyncEnv) (postSync : Option Post) :
    enrichPost env postSync = none ↔ postSync = none := by
  cases postSync <;> simp [enrichPost]

theorem classifyPost_ne_none (p : Post) (rc : RemoteCluster) (T : Int)
    (hE : 0 ≤ p.EditAt) (hD : 0 ≤ p.DeleteAt) :
    ¬classifyPost p rc T = none ↔
      ((p.EditAt = 0 ∨ T ≤ p.EditAt ∨ 0 < p.DeleteAt) ∧ p.RemoteId ≠ some rc.RemoteId) := by
  unfold classifyPost
  dsimp only
  by_cases hr : p.RemoteId = some rc.RemoteId
  · simp [hr]
  · rw [if_neg hr]
    by_cases hc : p.EditAt > 0 ∧ p.EditAt < T ∧ p.DeleteAt = 0
    · rw [if_pos hc]
      obtain ⟨h1, h2, h3⟩ := hc
      constructor
      · intro hfalse
        exact absurd rfl hfalse
      · rintro ⟨h | h | h, -⟩ <;> omega
    · rw [if_neg hc]
      constructor
      · intro _
        refine ⟨?_, hr⟩
        push_neg at hc
        by_cases h0 : p.EditAt = 0
        · exact Or.inl h0
        · have hpos : 0 < p.EditAt := lt_of_le_of_ne hE (Ne.symm h0)
          rcases lt_or_le p.EditAt T with hlt | hge
          · exact Or.inr (Or.inr (lt_of_le_of_ne hD (Ne.symm (hc hpos hlt))))
          · exact Or.inr (Or.inl hge)
      · intro _
        simp

theorem shouldUserSync_congr {env env' : SyncEnv} {user : User} {rc : RemoteCluster}
    (h1 : env'.getSCUser user.Id rc.RemoteId = env.getSCUser user.Id rc.RemoteId)
    (h2 : env'.saveSCUser = env.saveSCUser) :
    shouldUserSync env' user rc = shouldUserSync env user rc := by
  unfold shouldUserSync
  rw [h1, h2]

theorem filterMap_break_one {f g : String → Option User} {d : String}
    (hagree : ∀ i, i ≠ d → g i = f i) (hd : g d = none)
    (hid : ∀ i u, f i = some u → u.Id = i) :
    ∀ ids : List String,
      ids.filterMap g = (ids.filterMap f).filter (fun u => u.Id != d) := by
  intro ids
  induction ids with
  | nil => rfl
  | cons i is ih =>
    rw [List.filterMap_cons, List.filterMap_cons]
    by_cases hi : i = d
    · subst hi
      rw [hd]
      cases hf : f i with
      | none => exact ih
      | some u =>
        have hui : u.Id = i := hid i u hf
        simp only [List.filter_cons, hui, bne_self_eq_false, Bool.false_eq_true,
          if_false, ite_false]
        exact ih
    · rw [hagree i hi]
      cases hf : f i with
      | none => exact ih
      | some u =>
        have hune : (u.Id != d) = true := by
          rw [hid i u hf]
          exact bne_iff_ne.mpr hi
        simp only [List.filter_cons, hune, if_true, ite_true]
        rw [ih]

/-! Claim theorems. -/

/-- Claim C8: `sanitizeUserForSync` is total, replaces the credential by
the supplied fresh opaque value, clears the external-auth linkage,
downgrades the role to the baseline `system_user`, clears the marketing
flag, empties both property maps, zeroes the security bookkeeping fields
(last password change, last picture change, failed attempts, MFA flag and
secret), and leaves every other field of the record — in particular its
stable identity — unchanged. -/
theorem sanitizeUserForSync_resets_exactly_listed_fields (pw : String) (u : User) :
    (sanitizeUserForSync pw u).Password = pw ∧
    (sanitizeUserForSync pw u).AuthData = none ∧
    (sanitizeUserForSync pw u).AuthService = "" ∧
    (sanitizeUserForSync pw u).Roles = "system_user" ∧
    (sanitizeUserForSync pw u).AllowMarketing = false ∧
    (sanitizeUserForSync pw u).Props = [] ∧
    (sanitizeUserForSync pw u).NotifyProps = [] ∧
    (sanitizeUserForSync pw u).LastPasswordUpdate = 0 ∧
    (sanitizeUserForSync pw u).LastPictureUpdate = 0 ∧
    (sanitizeUserForSync pw u).FailedAttempts = 0 ∧
    (sanitizeUserForSync pw u).MfaActive = false ∧
    (sanitizeUserForSync pw u).MfaSecret = "" ∧
    (sanitizeUserForSync pw u).Id = u.Id ∧
    (sanitizeUserForSync pw u).Username = u.Username ∧
    (sanitizeUserForSync pw u).Email = u.Email ∧
    (sanitizeUserForSync pw u).Nickname = u.Nickname ∧
    (sanitizeUserForSync pw u).CreateAt = u.CreateAt ∧
    (sanitizeUserForSync pw u).UpdateAt = u.UpdateAt ∧
    (sanitizeUserForSync pw u).RemoteId = u.RemoteId :=
  ⟨rfl, rfl, rfl, rfl, rfl, rfl, rfl, rfl, rfl, rfl, rfl, rfl, rfl, rfl, rfl, rfl, rfl,
   rfl, rfl⟩

/-- Claim C5: for a user not originating from the target remote, the gate
returns `(false, nil)` when a cursor row exists with
`LastSyncAt ≥ UpdateAt`, `(true, nil)` when the row is stale, and
`(true, nil)` when no row exists — in which case a fresh cursor row is
created and its save attempted — and the decision component never depends
on the save outcome. -/
theorem shouldUserSync_cursor_cases (env : SyncEnv) (user : User) (rc : RemoteCluster)
    (horigin : user.RemoteId ≠ some rc.RemoteId) :
    (∀ scu, env.getSCUser user.Id rc.RemoteId = .found scu →
      user.UpdateAt ≤ scu.LastSyncAt → shouldUserSync env user rc = (.ok false, [])) ∧
    (∀ scu, env.getSCUser user.Id rc.RemoteId = .found scu →
      scu.LastSyncAt < user.UpdateAt → shouldUserSync env user rc = (.ok true, [])) ∧
    (env.getSCUser user.Id rc.RemoteId = .notFound →
      shouldUserSync env user rc =
        (.ok true, [({ UserId := user.Id, RemoteId := rc.RemoteId, LastSyncAt := 0 },
           env.saveSCUser { UserId := user.Id, RemoteId := rc.RemoteId, LastSyncAt := 0 })])) ∧
    (∀ b, (shouldUserSync { env with saveSCUser := fun _ => b } user rc).1 =
      (shouldUserSync env user rc).1) := by
  refine ⟨?_, ?_, ?_, ?_⟩
  · intro scu hf hle
    unfold shouldUserSync
    rw [if_neg horigin, hf]
    dsimp only
    rw [if_pos hle]
  · intro scu hf hlt
    unfold shouldUserSync
    rw [if_neg horigin, hf]
    dsimp only
    rw [if_neg (not_le.mpr hlt)]
  · intro hnf
    unfold shouldUserSync
    rw [if_neg horigin, hnf]
  · intro b
    unfold shouldUserSync
    by_cases ho : user.RemoteId = some rc.RemoteId
    · rw [if_pos ho, if_pos ho]
    · rw [if_neg ho, if_neg ho]
      cases henv : env.getSCUser user.Id rc.RemoteId <;> simp

/-- Witness for C5: in `testEnvFound` (cursor at 50) the gate declines
`testUser "u1"` (updated at 10) and accepts `testUserStale` (updated at
100); in `testEnv` (no cursor, failing saves) the gate still accepts and
records the attempted save of the fresh cursor row; flipping the save
outcome leaves the decision unchanged. -/
theorem shouldUserSync_cursor_cases_witness :
    shouldUserSync testEnvFound (testUser "u1") testRC = (.ok false, []) ∧
    shouldUserSync testEnvFound testUserStale testRC = (.ok true, []) ∧
    shouldUserSync testEnv (testUser "u1") testRC =
      (.ok true, [({ UserId := "u1", RemoteId := "remoteA", LastSyncAt := 0 }, false)]) ∧
    (shouldUserSync { testEnv with saveSCUser := fun _ => true } (testUser "u1") testRC).1 =
      (shouldUserSync testEnv (testUser "u1") testRC).1 :=
  ⟨(shouldUserSync_cursor_cases testEnvFound (testUser "u1") testRC (by decide)).1
      { UserId := "u1", RemoteId := "remoteA", LastSyncAt := 50 } rfl (by decide),
   (shouldUserSync_cursor_cases testEnvFound testUserStale testRC (by decide)).2.1
      { UserId := "u1", RemoteId := "remoteA", LastSyncAt := 50 } rfl (by decide),
   (shouldUserSync_cursor_cases testEnv (testUser "u1") testRC (by decide)).2.2.1 rfl,
   (shouldUserSync_cursor_cases testEnv (testUser "u1") testRC (by decide)).2.2.2 true⟩

/-- Claim C4: a user whose origin marker equals the target remote's id is
rejected by the gate with `(false, nil)`, and consequently no user in any
emitted unit's `Users` list carries the target remote as origin marker. -/
theorem origin_user_never_synced :
    (∀ (env : SyncEnv) (user : User) (rc : RemoteCluster),
      user.RemoteId = some rc.RemoteId → shouldUserSync env user rc = (.ok false, [])) ∧
    (∀ (env : SyncEnv) (posts : List Post) (rc : RemoteCluster) (T : Int)
      (l : List syncMsg), postsToSyncMessages env posts rc T = .ok l →
      ∀ sm ∈ l, ∀ u ∈ sm.Users, u.RemoteId ≠ some rc.RemoteId) := by
  constructor
  · intro env user rc h
    unfold shouldUserSync
    rw [if_pos h]
  · intro env posts rc T l h sm hsm u hu
    obtain ⟨p, -, reactions, c', -, -, rfl⟩ := mem_output h hsm
    dsimp only at hu
    obtain ⟨id, -, hres⟩ := mem_usersForPost hu
    obtain ⟨user, -, hsync, hueq⟩ := resolveUser_eq_some hres
    rw [hueq, sanitize_preserves_RemoteId]
    exact shouldUserSync_true_not_origin hsync

/-- Witness for C4: the gate declines `originUser` (origin `remoteA`)
outright, and the user emitted by the `post1` batch does not originate at
the target remote. -/
theorem origin_user_never_synced_witness :
    shouldUserSync testEnv originUser testRC = (.ok false, []) ∧
    u1sync.RemoteId ≠ some testRC.RemoteId :=
  ⟨origin_user_never_synced.1 testEnv originUser testRC rfl,
   origin_user_never_synced.2 testEnv [post1] testRC 100 [unit1] (by rfl) unit1
     (List.mem_singleton_self unit1) u1sync (List.mem_singleton_self u1sync)⟩

/-- Claim C2: no emitted `syncMsg` has `Post = none`, empty `Users` and
empty `Reactions` at once; a post for which everything was filtered out
contributes no unit at all. -/
theorem no_empty_unit_emitted (env : SyncEnv) (posts : List Post) (rc : RemoteCluster)
    (T : Int) (l : List syncMsg) (h : postsToSyncMessages env posts rc T = .ok l) :
    ∀ sm ∈ l, ¬(sm.Post = none ∧ sm.Users = [] ∧ sm.Reactions = []) := by
  suffices H : ∀ (posts : List Post) (c : List String) (l : List syncMsg),
      postsToSyncMessagesAux env rc T posts c = .ok l →
      ∀ sm ∈ l, ¬(sm.Post = none ∧ sm.Users = [] ∧ sm.Reactions = []) by
    exact H posts [] l h
  intro posts
  induction posts with
  | nil =>
    intro c l h sm hsm
    rw [postsToSyncMessagesAux] at h
    rw [← Except.ok.inj h] at hsm
    exact absurd hsm (List.not_mem_nil sm)
  | cons p rest ih =>
    intro c l h sm hsm
    rcases aux_cons_ok h with ⟨_, hrest⟩ | ⟨_, reactions, hget, hcase⟩
    · exact ih _ _ hrest sm hsm
    · rcases hcase with ⟨_, hrest⟩ | ⟨hne, msgs, hrec, hl⟩
      · exact ih _ _ hrest sm hsm
      · subst hl
        rcases List.mem_cons.mp hsm with rfl | hsm
        · rintro ⟨h1, h2, h3⟩
          exact hne ⟨h1, h3, h2⟩
        · exact ih _ _ hrec sm hsm

/-- Witness for C2: the unit emitted for `post2` (body omitted but a
reaction and a user present) is not empty. -/
theorem no_empty_unit_emitted_witness :
    ¬(unit2.Post = none ∧ unit2.Users = [] ∧ unit2.Reactions = []) :=
  no_empty_unit_emitted testEnv [post2] testRC 100 [unit2] (by rfl) unit2
    (List.mem_singleton_self unit2)

/-- Claim C1: every unit of the batch output carries the post body
exactly when the source post is new (`EditAt = 0`), edited at or after
the cursor, or deleted, and the post does not originate at the target
remote; otherwise the unit's `Post` field is `none`. Stated for
well-formed (nonnegative) timestamps. -/
theorem postBody_included_iff_changed_and_not_origin (env : SyncEnv) (posts : List Post)
    (rc : RemoteCluster) (T : Int) (l : List syncMsg)
    (hts : ∀ p ∈ posts, 0 ≤ p.EditAt ∧ 0 ≤ p.DeleteAt)
    (h : postsToSyncMessages env posts rc T = .ok l) :
    ∀ sm ∈ l, ∃ p ∈ posts, sm.PostId = p.Id ∧
      (¬sm.Post = none ↔
        ((p.EditAt = 0 ∨ T ≤ p.EditAt ∨ 0 < p.DeleteAt) ∧
          p.RemoteId ≠ some rc.RemoteId)) := by
  intro sm hsm
  obtain ⟨p, hp, reactions, c', -, -, rfl⟩ := mem_output h hsm
  refine ⟨p, hp, rfl, ?_⟩
  obtain ⟨hE, hD⟩ := hts p hp
  dsimp only
  rw [Iff.comm, ← classifyPost_ne_none p rc T hE hD, Iff.comm]
  exact not_congr (enrichPost_eq_none env (classifyPost p rc T))

/-- Witness for C1: in the two-post batch, the unit for `post2` (edited
at 50, before the cursor 100, not deleted) omits the body. -/
theorem postBody_included_iff_changed_and_not_origin_witness :
    ∃ p ∈ [post1, post2], unit2.PostId = p.Id ∧
      (¬unit2.Post = none ↔
        ((p.EditAt = 0 ∨ (100 : Int) ≤ p.EditAt ∨ 0 < p.DeleteAt) ∧
          p.RemoteId ≠ some testRC.RemoteId)) :=
  postBody_included_iff_changed_and_not_origin testEnv [post1, post2] testRC 100
    [unit1, unit2] (by decide) (by rfl) unit2 (by decide)

/-- Claim C10: the (channel id, post id) pairs of the emitted units form
a sublist of those of the input posts — every unit corresponds to a
distinct input post, the relative order is preserved, and the unit's
`ChannelId`/`PostId` equal those of its source post even when the body
was omitted. -/
theorem units_match_posts_in_order (env : SyncEnv) (posts : List Post) (rc : RemoteCluster)
    (T : Int) (l : List syncMsg) (h : postsToSyncMessages env posts rc T = .ok l) :
    (l.map fun sm => (sm.ChannelId, sm.PostId)).Sublist
      (posts.map fun p => (p.ChannelId, p.Id)) := by
  suffices H : ∀ (posts : List Post) (c : List String) (l : List syncMsg),
      postsToSyncMessagesAux env rc T posts c = .ok l →
      (l.map fun sm => (sm.ChannelId, sm.PostId)).Sublist
        (posts.map fun p => (p.ChannelId, p.Id)) by
    exact H posts [] l h
  intro posts
  induction posts with
  | nil =>
    intro c l h
    rw [postsToSyncMessagesAux] at h
    rw [← Except.ok.inj h]
    exact List.Sublist.refl _
  | cons p rest ih =>
    intro c l h
    rcases aux_cons_ok h with ⟨_, hrest⟩ | ⟨_, reactions, hget, hcase⟩
    · exact (ih _ _ hrest).cons _
    · rcases hcase with ⟨_, hrest⟩ | ⟨_, msgs, hrec, hl⟩
      · exact (ih _ _ hrest).cons _
      · subst hl
        exact (ih _ _ hrec).cons₂ _

/-- Witness for C10: the two units of the `[post1, post2]` batch line up
with the two posts in order. -/
theorem units_match_posts_in_order_witness :
    ([unit1, unit2].map fun sm => (sm.ChannelId, sm.PostId)).Sublist
      ([post1, post2].map fun p => (p.ChannelId, p.Id)) :=
  units_match_posts_in_order testEnv [post1, post2] testRC 100 [unit1, unit2] (by rfl)

/-- Claim C6: if the reaction fetch fails on the first candidate post it
is attempted for (all earlier non-system posts fetched fine), the whole
batch aborts with exactly that error, so no unit — for the failing post
or any later post — appears in any returned result. -/
theorem reaction_fetch_error_aborts_batch (env : SyncEnv) (rc : RemoteCluster) (T : Int)
    (pre : List Post) (p : Post) (suf : List Post) (e : String)
    (hpre : ∀ q ∈ pre, q.IsSystemMessage = false →
      (env.getReactionsSince q.Id T rc.RemoteId true).toOption.isSome = true)
    (hp : p.IsSystemMessage = false)
    (herr : env.getReactionsSince p.Id T rc.RemoteId true = .error e) :
    postsToSyncMessages env (pre ++ p :: suf) rc T = .error e :=
  aux_first_fetch_error pre [] hpre hp herr

/-- Witness for C6: with `postBad`'s reaction fetch failing, the
three-post batch returns the store error and no unit for `postBad` or
`post2`. -/
theorem reaction_fetch_error_aborts_batch_witness :
    postsToSyncMessages testEnv ([post1] ++ postBad :: [post2]) testRC 100 =
      .error "boom" :=
  reaction_fetch_error_aborts_batch testEnv testRC 100 [post1] postBad [post2] "boom"
    (by decide) (by decide) (by rfl)

/-- Claim C3: across one whole batch for one remote, no user id appears
twice — neither inside one unit's `Users` list nor across the `Users`
lists of different units. Stated under the store invariant that a user
fetch returns the record with the requested id. -/
theorem users_nodup_across_batch (env : SyncEnv) (posts : List Post) (rc : RemoteCluster)
    (T : Int) (l : List syncMsg)
    (hwf : ∀ id u, env.getUser id = .ok u → u.Id = id)
    (h : postsToSyncMessages env posts rc T = .ok l) :
    ((l.map syncMsg.Users).flatten.map User.Id).Nodup := by
  suffices H : ∀ (posts : List Post) (c : List String) (l : List syncMsg),
      postsToSyncMessagesAux env rc T posts c = .ok l →
      ((l.map syncMsg.Users).flatten.map User.Id).Nodup ∧
      (∀ i ∈ (l.map syncMsg.Users).flatten.map User.Id, i ∉ c) by
    exact (H posts [] l h).1
  intro posts
  induction posts with
  | nil =>
    intro c l h
    rw [postsToSyncMessagesAux] at h
    rw [← Except.ok.inj h]
    simp
  | cons p rest ih =>
    intro c l h
    rcases aux_cons_ok h with ⟨_, hrest⟩ | ⟨_, reactions, hget, hcase⟩
    · exact ih _ _ hrest
    · rcases hcase with ⟨_, hrest⟩ | ⟨-, msgs, hrec, hl⟩
      · obtain ⟨hnd, hnin⟩ := ih _ _ hrest
        exact ⟨hnd, fun i hi hic =>
          hnin i hi (usersForPost_cache_mono env _ reactions rc c hic)⟩
      · subst hl
        obtain ⟨hnd, hnin⟩ := ih _ _ hrec
        simp only [List.map_cons, List.flatten_cons, List.map_append]
        constructor
        · rw [List.nodup_append]
          refine ⟨usersForPost_ids_nodup hwf _ reactions rc c, hnd, ?_⟩
          intro a ha hb
          obtain ⟨u, hu, hua⟩ := List.mem_map.mp ha
          have hfr := usersForPost_id_fresh hwf hu
          rw [hua] at hfr
          exact hnin a hb hfr.2
        · intro i hi
          rcases List.mem_append.mp hi with hi | hi
          · obtain ⟨u, hu, hui⟩ := List.mem_map.mp hi
            have hfr := usersForPost_id_fresh hwf hu
            rw [hui] at hfr
            exact hfr.1
          · intro hic
            exact hnin i hi (usersForPost_cache_mono env _ reactions rc c hic)

/-- Witness for C3: the two-post batch emits `u1` and `u2` once each —
the joined id list of its units has no duplicates. -/
theorem users_nodup_across_batch_witness :
    ((([unit1, unit2].map syncMsg.Users).flatten).map User.Id).Nodup :=
  users_nodup_across_batch testEnv [post1, post2] testRC 100 [unit1, unit2]
    (fun id u h => by
      have h2 : testUser id = u := Except.ok.inj h
      rw [← h2]
      rfl)
    (by rfl)

/-- Claim C7: scrubbing an already-scrubbed user yields the same
sanitized shape as one scrub with the final fresh credential (the
scrubber is idempotent), and every user carried by any emitted unit is in
the scrubber's range. -/
theorem sanitize_idempotent_and_applied :
    (∀ (pw1 pw2 : String) (u : User),
      sanitizeUserForSync pw2 (sanitizeUserForSync pw1 u) = sanitizeUserForSync pw2 u) ∧
    (∀ (env : SyncEnv) (posts : List Post) (rc : RemoteCluster) (T : Int)
      (l : List syncMsg), postsToSyncMessages env posts rc T = .ok l →
      ∀ sm ∈ l, ∀ u ∈ sm.Users, ∃ pw u0, u = sanitizeUserForSync pw u0) := by
  constructor
  · intro pw1 pw2 u
    rfl
  · intro env posts rc T l h sm hsm u hu
    obtain ⟨p, -, reactions, c', -, -, rfl⟩ := mem_output h hsm
    dsimp only at hu
    obtain ⟨id, -, hres⟩ := mem_usersForPost hu
    obtain ⟨user, -, -, hueq⟩ := resolveUser_eq_some hres
    exact ⟨env.newId id, user, hueq⟩

/-- Witness for C7: double-scrubbing a concrete user collapses to one
scrub, and the user emitted for `post1` is a scrubbed record. -/
theorem sanitize_idempotent_and_applied_witness :
    sanitizeUserForSync "b" (sanitizeUserForSync "a" (testUser "u9")) =
      sanitizeUserForSync "b" (testUser "u9") ∧
    ∃ pw u0, u1sync = sanitizeUserForSync pw u0 :=
  ⟨sanitize_idempotent_and_applied.1 "a" "b" (testUser "u9"),
   sanitize_idempotent_and_applied.2 testEnv [post1] testRC 100 [unit1] (by rfl) unit1
     (List.mem_singleton_self unit1) u1sync (List.mem_singleton_self u1sync)⟩

/-- Claim C9: a failure affecting one candidate user skips only that
user. Failing the user-record lookup for id `d`, or failing `d`'s cursor
lookup so the gate errors, removes exactly the user with id `d` from
`usersForPost`'s result and leaves the cache and every other resolved
user unchanged; and the batch aborts with an error only when a reaction
fetch failed, never because of a per-user failure. Stated under the
store invariant that a user fetch returns the record with the requested
id. -/
theorem per_user_failure_skips_only_that_user :
    (∀ (env : SyncEnv) (post : Option Post) (reactions : List Reaction)
       (rc : RemoteCluster) (c : List String) (d : String) (e : String),
      (∀ id u, env.getUser id = .ok u → u.Id = id) →
      usersForPost
          { env with getUser := fun i => if i = d then .error e else env.getUser i }
          post reactions rc c =
        ((usersForPost env post reactions rc c).1.filter (fun u => u.Id != d),
         (usersForPost env post reactions rc c).2)) ∧
    (∀ (env : SyncEnv) (post : Option Post) (reactions : List Reaction)
       (rc : RemoteCluster) (c : List String) (d : String) (e : String),
      (∀ id u, env.getUser id = .ok u → u.Id = id) →
      usersForPost
          { env with getSCUser := fun uid rid =>
              if uid = d then .storeError e else env.getSCUser uid rid }
          post reactions rc c =
        ((usersForPost env post reactions rc c).1.filter (fun u => u.Id != d),
         (usersForPost env post reactions rc c).2)) ∧
    (∀ (env : SyncEnv) (posts : List Post) (rc : RemoteCluster) (T : Int) (e : String),
      postsToSyncMessages env posts rc T = .error e →
      ∃ p ∈ posts, p.IsSystemMessage = false ∧
        env.getReactionsSince p.Id T rc.RemoteId true = .error e) := by
  refine ⟨?_, ?_, ?_⟩
  · intro env post reactions rc c d e hwf
    rw [usersForPost_eq, usersForPost_eq]
    have hagree : ∀ i, i ≠ d →
        resolveUser { env with getUser := fun i => if i = d then .error e else env.getUser i }
          rc i = resolveUser env rc i := by
      intro i hi
      unfold resolveUser
      have hs : ∀ u : User,
          shouldUserSync
            { env with getUser := fun i => if i = d then .error e else env.getUser i } u rc =
          shouldUserSync env u rc := fun u => shouldUserSync_congr rfl rfl
      simp only [hs]
      rw [if_neg hi]
    have hd : resolveUser
        { env with getUser := fun i => if i = d then .error e else env.getUser i } rc d =
        none := by
      unfold resolveUser
      dsimp only
      rw [if_pos rfl]
    rw [filterMap_break_one hagree hd (fun i u h => resolveUser_id hwf h)]
  · intro env post reactions rc c d e hwf
    rw [usersForPost_eq, usersForPost_eq]
    have hagree : ∀ i, i ≠ d →
        resolveUser { env with getSCUser := fun uid rid =>
            if uid = d then .storeError e else env.getSCUser uid rid } rc i =
          resolveUser env rc i := by
      intro i hi
      unfold resolveUser
      cases hg : env.getUser i with
      | error e' => rfl
      | ok user =>
        dsimp only
        have hid2 : user.Id ≠ d := by
          rw [hwf i user hg]
          exact hi
        have hs : shouldUserSync
            { env with getSCUser := fun uid rid =>
                if uid = d then .storeError e else env.getSCUser uid rid } user rc =
            shouldUserSync env user rc := by
          refine shouldUserSync_congr ?_ rfl
          dsimp only
          rw [if_neg hid2]
        rw [hs]
    have hd : resolveUser { env with getSCUser := fun uid rid =>
          if uid = d then .storeError e else env.getSCUser uid rid } rc d = none := by
      unfold resolveUser
      cases hg : env.getUser d with
      | error e' => rfl
      | ok user =>
        dsimp only
        have huid : user.Id = d := hwf d user hg
        unfold shouldUserSync
        by_cases ho : user.RemoteId = some rc.RemoteId
        · rw [if_pos ho]
        · rw [if_neg ho]
          dsimp only
          rw [if_pos huid]
    rw [filterMap_break_one hagree hd (fun i u h => resolveUser_id hwf h)]
  · intro env posts rc T e h
    exact aux_error_source h

/-- Witness for C9: breaking user `u1`'s record lookup (or its cursor
lookup) removes exactly `u1` from the `post1` resolution while the cache
still records it; and the error of the `[post1, postBad]` batch traces
back to `postBad`'s reaction fetch. -/
theorem per_user_failure_skips_only_that_user_witness :
    usersForPost { testEnv with getUser := fun i =>
        (if i = "u1" then .error "down" else testEnv.getUser i) } (some post1) [] testRC [] =
      ((usersForPost testEnv (some post1) [] testRC []).1.filter (fun u => u.Id != "u1"),
       (usersForPost testEnv (some post1) [] testRC []).2) ∧
    usersForPost { testEnv with getSCUser := fun uid rid =>
        (if uid = "u1" then .storeError "down" else testEnv.getSCUser uid rid) }
        (some post1) [] testRC [] =
      ((usersForPost testEnv (some post1) [] testRC []).1.filter (fun u => u.Id != "u1"),
       (usersForPost testEnv (some post1) [] testRC []).2) ∧
    ∃ p ∈ [post1, postBad], p.IsSystemMessage = false ∧
      testEnv.getReactionsSince p.Id 100 testRC.RemoteId true = .error "boom" :=
  ⟨per_user_failure_skips_only_that_user.1 testEnv (some post1) [] testRC [] "u1" "down"
     (fun id u h => by
       have h2 : testUser id = u := Except.ok.inj h
       rw [← h2]
       rfl),
   per_user_failure_skips_only_that_user.2.1 testEnv (some post1) [] testRC [] "u1" "down"
     (fun id u h => by
       have h2 : testUser id = u := Except.ok.inj h
       rw [← h2]
       rfl),
   per_user_failure_skips_only_that_user.2.2 testEnv [post1, postBad] testRC 100 "boom"
     (by rfl)⟩

end Sharedchannel
